import Mathlib

/-!
kraftkit: `runu state` and `kraft cloud volume remove`.

A shallow embedding of two command bodies of the repository:

* `StateOptions.Run` (`internal/cli/runu/state/state.go`), which loads a
  container, resolves its status, and prints an OCI runtime state document;
* `RemoveOptions.Run` (`internal/cli/kraft/cloud/volume/remove/remove.go`),
  which classifies its arguments and issues delete requests.

Everything the two functions call outside the files themselves (the container
library, the JSON encoder, standard output, the cloud client) is a field of an
environment record, so every theorem holds for all behaviours of those
collaborators.
-/

set_option autoImplicit false

namespace Kraftkit

/-! ## Go values shared by both commands -/

/-- Go `error` values.  `wrap ctx inner` is `fmt.Errorf(ctx + ": %w", inner)`:
the wrapped error stays reachable through `errors.Unwrap`. -/
inductive Error where
  | msg (text : String)
  | wrap (context : String) (inner : Error)
  deriving DecidableEq

/-- The chain of errors reachable from `e` by `errors.Unwrap`, `e` first. -/
def Error.chain : Error → List Error
  | .msg t => [.msg t]
  | .wrap c inner => .wrap c inner :: inner.chain

/-- A byte slice, kept as the text it holds. -/
abbrev Bytes := String

/-- A Go `map[string]string`: `none` is the nil map, `some kvs` a map holding
the entries `kvs`. -/
abbrev StringMap := Option (List (String × String))

/-- Go `len(m)` for a map; the nil map has length 0. -/
def StringMap.len : StringMap → Nat
  | none => 0
  | some kvs => kvs.length

/-- A `time.Time`, kept as an instant in nanoseconds since the Unix epoch. -/
structure Time where
  unixNano : Int
  deriving DecidableEq

/-! ## `runu state` -/

/-- Modelled from the spec: the `Status` type of the container library
(`kraftkit.sh/libmocktainer`), which is not among the sources.  The spec gives
the status vocabulary as Creating, Created, Running, Paused, Stopped. -/
inductive Status where
  | Creating
  | Created
  | Running
  | Paused
  | Stopped
  deriving DecidableEq

/-- Modelled from the spec: `Status.String` of the container library, which is
not among the sources.  The external schema lists the strings
`creating,created,running,paused,stopped`. -/
def Status.String : Status → String
  | .Creating => "creating"
  | .Created => "created"
  | .Running => "running"
  | .Paused => "paused"
  | .Stopped => "stopped"

/-- Modelled from the spec: the container configuration type of the container
library, which is not among the sources; it holds the three fields that
`StateOptions.Run` reads (`Version`, `Rootfs`, `Labels`). -/
structure Config where
  Version : String
  Rootfs : String
  Labels : List String
  deriving DecidableEq

/-- Modelled from the spec: the `BaseState` type of the container library,
which is not among the sources; it holds the fields that `StateOptions.Run`
reads, and the start-time token the spec records next to the pid. -/
structure BaseState where
  ID : String
  InitProcessPid : Int
  InitProcessStartTime : Nat
  Created : Time
  Config : Config
  deriving DecidableEq

/-- Modelled from the spec: the `State` type of the container library, which
is not among the sources; it embeds `BaseState`, so `state.Config` is
`state.BaseState.Config`. -/
structure State where
  BaseState : BaseState
  deriving DecidableEq

/-- A loaded container, given by what its two methods return in this run:
`c.Status()` and `c.State()`.  The two results are independent fields, so no
relation between them is assumed. -/
structure Container where
  Status : Except Error Status
  State : Except Error State

/-- The value of one member of the emitted JSON object: the Go value that the
encoder is handed for that member. -/
inductive JValue where
  | str (s : String)
  | num (n : Int)
  | strMap (m : List (String × String))
  | time (t : Time)
  deriving DecidableEq

/-- A JSON object as the ordered list of its members. -/
abbrev JObject := List (String × JValue)

/-- The member names of a JSON object, in order. -/
def JObject.keys (o : JObject) : List String :=
  o.map Prod.fst

/-- The value stored under `key`, if the object has that member. -/
def JObject.get (o : JObject) (key : String) : Option JValue :=
  (o.find? fun kv => kv.1 == key).map Prod.snd

/-- The `containerState` struct of `state.go`. -/
structure containerState where
  OCIVersion : String
  ID : String
  Status : String
  Bundle : String
  Pid : Int
  Annotations : StringMap
  RootFS : String
  Created : Time
  deriving DecidableEq

/-- The JSON object that `encoding/json` builds for a `containerState`: one
member per struct field, in declaration order, named by the field's `json`
tag; the `annotations` member carries `omitempty`, so it is left out when the
map has length 0. -/
def containerState.jsonFields (cs : containerState) : JObject :=
  [("ociVersion", JValue.str cs.OCIVersion),
   ("id", JValue.str cs.ID),
   ("status", JValue.str cs.Status),
   ("bundle", JValue.str cs.Bundle),
   ("pid", JValue.num cs.Pid)]
  ++ (if cs.Annotations.len = 0 then []
      else [("annotations", JValue.strMap (cs.Annotations.getD []))])
  ++ [("rootfs", JValue.str cs.RootFS),
      ("created", JValue.time cs.Created)]

/-- The collaborators of `StateOptions.Run`.
* `Load` is `libcontainer.Load(rootDir, id)`.
* `Annotations` is `utils.Annotations` of the runc library: bundle path and
  user annotations from the labels.
* `encode` is the byte rendering done by `json.MarshalIndent` on the object
  built from the struct tags; it can fail.
* `Write` is `os.Stdout.Write`, given by the error it returns. -/
structure Env where
  Load : String → String → Except Error Container
  Annotations : List String → String × StringMap
  encode : JObject → Except Error Bytes
  Write : Bytes → Option Error

/-- What a run of `StateOptions.Run` leaves behind: the returned error, the
calls of `os.Stdout.Write` (each byte slice with the error the call returned),
and the errors handed to the logger by the deferred function. -/
structure Outcome where
  retErr : Option Error
  writes : List (Bytes × Option Error)
  logged : List Error
  deriving DecidableEq

/-- `StateOptions` of `state.go`. -/
structure StateOptions where
  rootDir : String
  deriving DecidableEq

/-- A return with error `e`: nothing was written, and the deferred function
logs `e` because it is non-nil. -/
def failWith (e : Error) : Outcome :=
  { retErr := some e, writes := [], logged := [e] }

/-- Lines 85-101 of `state.go`: the pid is the record's init pid unless the
status is `Stopped`, the bundle and annotations come from the labels, and the
other fields are copied from the state. -/
def buildState (env : Env) (status : Status) (state : State) : containerState :=
  let pid := state.BaseState.InitProcessPid
  let pid := if status = Status.Stopped then 0 else pid
  let (bundle, annotations) := env.Annotations state.BaseState.Config.Labels
  { OCIVersion := state.BaseState.Config.Version
    ID := state.BaseState.ID
    Status := status.String
    Bundle := bundle
    Pid := pid
    Annotations := annotations
    RootFS := state.BaseState.Config.Rootfs
    Created := state.BaseState.Created }

/-- Lines 103-110 of `state.go`: serialize, return the wrapped error if that
fails, otherwise write the bytes to standard output and return nil.  The code
discards what the write returns (`_, _ =`); the outcome keeps it next to the
bytes, as a record of the call only. -/
def emit (env : Env) (cs : containerState) : Outcome :=
  match env.encode cs.jsonFields with
  | .error err => failWith (.wrap "serializing container state" err)
  | .ok data =>
    let written := env.Write data
    { retErr := none, writes := [(data, written)], logged := [] }

/-- `StateOptions.Run` of `state.go`.  The result is `none` when `args[0]`
panics on an empty argument list. -/
def StateOptions.Run (env : Env) (opts : StateOptions) (args : List String) :
    Option Outcome :=
  match args with
  | [] => none
  | cID :: _ =>
    match env.Load opts.rootDir cID with
    | .error err => some (failWith (.wrap "loading container from saved state" err))
    | .ok c =>
      match c.Status with
      | .error err => some (failWith (.wrap "getting container status" err))
      | .ok status =>
        match c.State with
        | .error err => some (failWith (.wrap "getting container state" err))
        | .ok state => some (emit env (buildState env status state))

/-! ## Status resolution (container library) -/

/-- Modelled from the spec: the process probe, which the sources do not
contain.  For a pid it either fails (`ProbeFailure`), reports the process dead
(`none`), or reports it alive together with its current start-time token. -/
abbrev Probe := Int → Except Error (Option Nat)

/-- Modelled from the spec: the persisted instance record (section 3), which
the sources do not contain: the state that `c.State()` returns together with
the last recorded phase. -/
structure InstanceRecord where
  state : State
  lastKnownPhase : Status
  deriving DecidableEq

/-- Modelled from the spec: the status resolver behind `c.Status()` (section
4.3), which the sources do not contain.
* A record whose phase is Stopped resolves to Stopped regardless of the probe.
* With a non-zero pid the probe is queried: a failure is propagated; a live
  process with the recorded start-time token gives the recorded phase; a dead
  process, or a live one with another token, gives Stopped.
* With pid 0 and phase Creating or Created the phase is the status.
The spec says nothing about pid 0 with phase Running or Paused; the result for
that case is the parameter `unspecified`. -/
def resolve (unspecified : Except Error Status) (probe : Probe) (record : InstanceRecord) :
    Except Error Status :=
  let pid := record.state.BaseState.InitProcessPid
  if record.lastKnownPhase = Status.Stopped then .ok Status.Stopped
  else if pid ≠ 0 then
    match probe pid with
    | .error err => .error err
    | .ok none => .ok Status.Stopped
    | .ok (some token) =>
      if token = record.state.BaseState.InitProcessStartTime then .ok record.lastKnownPhase
      else .ok Status.Stopped
  else if record.lastKnownPhase = Status.Creating ∨ record.lastKnownPhase = Status.Created then
    .ok record.lastKnownPhase
  else unspecified

/-! ## `kraft cloud volume remove` -/

/-- One request to the volumes client, with the variadic arguments it got. -/
inductive Call where
  | DeleteByUUIDs (uuids : List String)
  | DeleteByNames (names : List String)
  deriving DecidableEq

/-- One request together with the pair `(delResp, err)` it returned. -/
structure Exchange (Resp : Type) where
  call : Call
  resp : Option Resp
  err : Option Error

/-- The collaborators of `RemoveOptions.Run`; `Resp` is the type of a service
response.
* `GetKraftCloudAuthConfig` is the credential lookup by token.
* `IsUUID` is `utils.IsUUID`.
* `client auth metro earlier call` is what the volumes client built from
  `auth` and bound to `metro` returns for `call` after the requests `earlier`
  of this run: a response pointer (`none` is nil) and an error.
* `AllOrErr` is the method of that name on the response pointer, given by the
  error it returns. -/
structure RemoveEnv (Resp : Type) where
  GetKraftCloudAuthConfig : String → Except Error String
  IsUUID : String → Bool
  client : String → String → List Call → Call → Option Resp × Option Error
  AllOrErr : Option Resp → Option Error

/-- `RemoveOptions` of `remove.go`. -/
structure RemoveOptions where
  metro : String
  token : String
  deriving DecidableEq

/-- What a run of `RemoveOptions.Run` leaves behind: the returned error and
the requests made, in order, each with what it returned. -/
structure RemoveOutcome (Resp : Type) where
  retErr : Option Error
  trace : List (Exchange Resp)

/-- Lines 86-95 of `remove.go`: the classification loop, started from the
flags `(allUUIDs, allNames)`; it breaks as soon as both flags are false. -/
def classify (IsUUID : String → Bool) : List String → Bool × Bool → Bool × Bool
  | [], flags => flags
  | arg :: rest, (allUUIDs, allNames) =>
    let flags : Bool × Bool := if IsUUID arg then (allUUIDs, false) else (false, allNames)
    if !(flags.1 || flags.2) then flags
    else classify IsUUID rest flags

/-- Issue one request and append it to the trace. -/
def request {Resp : Type} (env : RemoveEnv Resp) (auth metro : String)
    (trace : List (Exchange Resp)) (call : Call) : Exchange Resp :=
  let r := env.client auth metro (trace.map Exchange.call) call
  { call := call, resp := r.1, err := r.2 }

/-- Lines 109-120 of `remove.go`: one request per argument, by the method that
matches the argument; the first request that returns an error ends the loop
with a wrapped error.  The result is that error, if any, the trace, and the
last value assigned to `delResp`. -/
def deleteEach {Resp : Type} (env : RemoveEnv Resp) (auth metro : String) :
    List String → List (Exchange Resp) → Option Resp →
      Option Error × List (Exchange Resp) × Option Resp
  | [], trace, delResp => (none, trace, delResp)
  | arg :: rest, trace, _ =>
    let call := if env.IsUUID arg then Call.DeleteByUUIDs [arg] else Call.DeleteByNames [arg]
    let x := request env auth metro trace call
    match x.err with
    | some err => (some (.wrap ("could not delete volume " ++ arg) err), trace ++ [x], x.resp)
    | none => deleteEach env auth metro rest (trace ++ [x]) x.resp

/-- Lines 122-126 of `remove.go`: the `AllOrErr` check on the final value of
`delResp`. -/
def checkLast {Resp : Type} (env : RemoveEnv Resp) (delResp : Option Resp)
    (trace : List (Exchange Resp)) : RemoveOutcome Resp :=
  match env.AllOrErr delResp with
  | some err => { retErr := some (.wrap "removing volume(s)" err), trace := trace }
  | none => { retErr := none, trace := trace }

/-- Lines 100-107 of `remove.go`: one request with all the arguments. -/
def deleteAll {Resp : Type} (env : RemoveEnv Resp) (auth metro : String) (call : Call)
    (count : Nat) : RemoveOutcome Resp :=
  let x := request env auth metro [] call
  match x.err with
  | some err =>
    { retErr := some (.wrap ("deleting " ++ toString count ++ " volume(s)") err), trace := [x] }
  | none => checkLast env x.resp [x]

/-- `RemoveOptions.Run` of `remove.go` (the informational log lines are left
out). -/
def RemoveOptions.Run {Resp : Type} (env : RemoveEnv Resp) (opts : RemoveOptions)
    (args : List String) : RemoveOutcome Resp :=
  match env.GetKraftCloudAuthConfig opts.token with
  | .error err => { retErr := some (.wrap "could not retrieve credentials" err), trace := [] }
  | .ok auth =>
    let flags := classify env.IsUUID args (true, true)
    if flags.1 then
      deleteAll env auth opts.metro (Call.DeleteByUUIDs args) args.length
    else if flags.2 then
      deleteAll env auth opts.metro (Call.DeleteByNames args) args.length
    else
      match deleteEach env auth opts.metro args [] none with
      | (some err, trace, _) => { retErr := some err, trace := trace }
      | (none, trace, delResp) => checkLast env delResp trace

/-- The request that the per-argument loop makes for one argument. -/
def callOf (IsUUID : String → Bool) (arg : String) : Call :=
  if IsUUID arg then Call.DeleteByUUIDs [arg] else Call.DeleteByNames [arg]

/-- Every exchange of the list holds exactly what the client returns for its
request, asked after the requests `earlier` and the requests before it in the
list. -/
def answeredFrom {Resp : Type} (env : RemoveEnv Resp) (auth metro : String) :
    List Call → List (Exchange Resp) → Prop
  | _, [] => True
  | earlier, x :: xs =>
    (x.resp, x.err) = env.client auth metro earlier x.call ∧
      answeredFrom env auth metro (earlier ++ [x.call]) xs

/-! ## Failing steps of `runu state` -/

/-- One of the four fallible steps of `StateOptions.Run` fails with `e` for the
instance `cID` under `rootDir`: loading the container, resolving its status,
reading its state, or serializing the state built from them. -/
def StepFails (env : Env) (rootDir cID : String) (e : Error) : Prop :=
  env.Load rootDir cID = .error e ∨
  (∃ c, env.Load rootDir cID = .ok c ∧ c.Status = .error e) ∨
  (∃ c status, env.Load rootDir cID = .ok c ∧ c.Status = .ok status ∧ c.State = .error e) ∨
  (∃ c status state, env.Load rootDir cID = .ok c ∧ c.Status = .ok status ∧
    c.State = .ok state ∧ env.encode (buildState env status state).jsonFields = .error e)

/-! ## Concrete instances -/

/-- Split a label at its first `=`; `none` when it has none. -/
def cutLabel : List Char → Option (List Char × List Char)
  | [] => none
  | ch :: rest =>
    if ch = '=' then some ([], rest)
    else (cutLabel rest).map fun p => (ch :: p.1, p.2)

/-- Go `m[key] = value` on a map kept as a list of entries: the value of an
existing key is replaced, a new key is added. -/
def setKey (key value : String) : List (String × String) → List (String × String)
  | [] => [(key, value)]
  | kv :: rest =>
    if kv.1 = key then (key, value) :: rest else kv :: setKey key value rest

/-- The loop of the `Annotations` helper of the runc library over the labels,
from the bundle and the annotations collected so far: a label without `=` is
skipped, the label `bundle` sets the bundle path, every other label is stored
in the map; a later label overrides an earlier one of the same name. -/
def collectLabels : List String → String × List (String × String) →
    String × List (String × String)
  | [], acc => acc
  | l :: rest, (bundle, anns) =>
    match cutLabel l.data with
    | none => collectLabels rest (bundle, anns)
    | some (name, value) =>
      if name = "bundle".data then collectLabels rest (String.mk value, anns)
      else collectLabels rest (bundle, setKey (String.mk name) (String.mk value) anns)

/-- An instance of the `Annotations` helper: the loop started from the empty
bundle path and a fresh, non-nil map. -/
def sampleAnnotations (labels : List String) : String × StringMap :=
  let r := collectLabels labels ("", [])
  (r.1, some r.2)

/-- A stopped instance whose record still carries the stale pid 4821. -/
def stoppedState : State :=
  { BaseState :=
    { ID := "my-unikernel", InitProcessPid := 4821, InitProcessStartTime := 100,
      Created := { unixNano := 1700000000 },
      Config := { Version := "1.1.0", Rootfs := "/b/rootfs", Labels := ["bundle=/b"] } } }

/-- A running instance with pid 4821 and one user annotation. -/
def runningState : State :=
  { BaseState :=
    { ID := "web-1", InitProcessPid := 4821, InitProcessStartTime := 100,
      Created := { unixNano := 1700000000 },
      Config := { Version := "1.1.0", Rootfs := "/w/rootfs",
                  Labels := ["bundle=/w", "tier=web"] } } }

/-- A created instance whose process has not been started: pid 0. -/
def freshState : State :=
  { BaseState :=
    { ID := "fresh", InitProcessPid := 0, InitProcessStartTime := 0,
      Created := { unixNano := 1700000000 },
      Config := { Version := "1.1.0", Rootfs := "/f/rootfs", Labels := ["bundle=/f"] } } }

/-- A root directory with four instances; the status of `locked` cannot be
resolved, and any other id is not found. -/
def sampleLoad (_rootDir cID : String) : Except Error Container :=
  if cID = "my-unikernel" then .ok { Status := .ok Status.Stopped, State := .ok stoppedState }
  else if cID = "web-1" then .ok { Status := .ok Status.Running, State := .ok runningState }
  else if cID = "fresh" then .ok { Status := .ok Status.Created, State := .ok freshState }
  else if cID = "locked" then
    .ok { Status := .error (.msg "probe: permission denied"), State := .ok runningState }
  else .error (.msg "container does not exist")

/-- An encoder that renders the member names only and never fails. -/
def sampleEncode (o : JObject) : Except Error Bytes :=
  .ok (String.intercalate "," o.keys)

/-- An environment whose standard output accepts every write. -/
def sampleEnv : Env :=
  { Load := sampleLoad, Annotations := sampleAnnotations, encode := sampleEncode,
    Write := fun _ => none }

/-- The same environment with a closed standard output: every write fails. -/
def brokenStdoutEnv : Env :=
  { sampleEnv with Write := fun _ => some (.msg "write /dev/stdout: broken pipe") }

/-- The options of the concrete runs. -/
def sampleOpts : StateOptions :=
  { rootDir := "/run/runu" }

/-- The record of `web-1`: running, pid 4821, start-time token 100. -/
def runningRecord : InstanceRecord :=
  { state := runningState, lastKnownPhase := Status.Running }

/-- A probe that finds pid 4821 alive, but started at 200: the pid was reused. -/
def reusedPidProbe : Probe :=
  fun pid => if pid = 4821 then .ok (some 200) else .ok none

/-- A volumes service with one broken volume: a request that names the UUID
`11111111-2222-3333-4444-555555555555` is answered without a transport error
by a response that fails `AllOrErr` (`some false`); every other request is
answered by a response that passes (`some true`). -/
def sampleRemoveEnv : RemoveEnv Bool :=
  { GetKraftCloudAuthConfig := fun token => .ok token
    IsUUID := fun arg => arg == "11111111-2222-3333-4444-555555555555"
    client := fun _ _ _ call =>
      match call with
      | .DeleteByUUIDs uuids =>
        (some (!uuids.contains "11111111-2222-3333-4444-555555555555"), none)
      | .DeleteByNames _ => (some true, none)
    AllOrErr := fun resp =>
      match resp with
      | some true => none
      | some false => some (.msg "volume is attached to an instance")
      | none => some (.msg "no response") }

/-- The same volumes service behind a broken connection for requests by name:
`DeleteByNames` returns a nil response and a transport error. -/
def failingRemoveEnv : RemoveEnv Bool :=
  { sampleRemoveEnv with
    client := fun auth metro earlier call =>
      match call with
      | .DeleteByUUIDs _ => sampleRemoveEnv.client auth metro earlier call
      | .DeleteByNames _ => (none, some (.msg "connection refused")) }

/-- The options of the concrete `remove` runs. -/
def sampleRemoveOpts : RemoveOptions :=
  { metro := "fra0", token := "secret" }

end Kraftkit

/-! ## Theorems -/

namespace Kraftkit

/-! ## Shared lemmas about `StateOptions.Run` -/

/-- When the three library calls succeed, `Run` goes on to serialize the state
built from their results. -/
theorem run_of_loaded (env : Env) (opts : StateOptions) (cID : String) (rest : List String)
    (c : Container) (status : Status) (state : State)
    (hL : env.Load opts.rootDir cID = .ok c) (hS : c.Status = .ok status)
    (hSt : c.State = .ok state) :
    StateOptions.Run env opts (cID :: rest) = some (emit env (buildState env status state)) := by
  simp [StateOptions.Run, hL, hS, hSt]

/-- The pid field of the state built by `Run`. -/
theorem buildState_pid (env : Env) (status : Status) (state : State) :
    (buildState env status state).Pid =
      if status = Status.Stopped then 0 else state.BaseState.InitProcessPid := by
  simp [buildState]

/-- The annotations field of the state built by `Run`. -/
theorem buildState_annotations (env : Env) (status : Status) (state : State) :
    (buildState env status state).Annotations =
      (env.Annotations state.BaseState.Config.Labels).2 := by
  simp [buildState]

/-- The member names of the serialized object. -/
theorem jsonFields_keys (cs : containerState) :
    cs.jsonFields.keys =
      ["ociVersion", "id", "status", "bundle", "pid"]
        ++ (if cs.Annotations.len = 0 then [] else ["annotations"])
        ++ ["rootfs", "created"] := by
  unfold containerState.jsonFields JObject.keys
  split <;> simp

/-- The `annotations` member of the serialized object. -/
theorem jsonFields_get_annotations (cs : containerState) :
    cs.jsonFields.get "annotations" =
      if cs.Annotations.len = 0 then none
      else some (JValue.strMap (cs.Annotations.getD [])) := by
  unfold containerState.jsonFields JObject.get
  split <;> simp [List.find?]

/-- A run that returns nil went through all four steps and handed the encoded
bytes to one write. -/
theorem run_nil_inv (env : Env) (opts : StateOptions) (cID : String) (rest : List String)
    (out : Outcome) (h : StateOptions.Run env opts (cID :: rest) = some out)
    (hnil : out.retErr = none) :
    ∃ c status state data, env.Load opts.rootDir cID = .ok c ∧ c.Status = .ok status ∧
      c.State = .ok state ∧
      env.encode (buildState env status state).jsonFields = .ok data ∧
      out.writes = [(data, env.Write data)] ∧ out.logged = [] := by
  unfold StateOptions.Run at h
  cases hL : env.Load opts.rootDir cID with
  | error e => simp [hL, failWith] at h; subst h; simp at hnil
  | ok c =>
    cases hS : c.Status with
    | error e => simp [hL, hS, failWith] at h; subst h; simp at hnil
    | ok status =>
      cases hSt : c.State with
      | error e => simp [hL, hS, hSt, failWith] at h; subst h; simp at hnil
      | ok state =>
        simp only [hL, hS, hSt, Option.some.injEq] at h
        cases hE : env.encode (buildState env status state).jsonFields with
        | error e => simp [emit, hE, failWith] at h; subst h; simp at hnil
        | ok data =>
          refine ⟨c, status, state, data, rfl, hS, hSt, hE, ?_, ?_⟩ <;>
            (simp [emit, hE] at h; subst h; rfl)

/-! ## The state report -/

/-- C1: when the container loads and `c.Status()` returns Stopped, the state
that `Run` builds and serializes has pid 0, and its `pid` member is the number
0, whatever `InitProcessPid` the state holds. -/
theorem stopped_reports_pid_zero (env : Env) (opts : StateOptions) (cID : String)
    (rest : List String) (c : Container) (state : State)
    (hL : env.Load opts.rootDir cID = .ok c) (hS : c.Status = .ok Status.Stopped)
    (hSt : c.State = .ok state) :
    StateOptions.Run env opts (cID :: rest)
        = some (emit env (buildState env Status.Stopped state)) ∧
      (buildState env Status.Stopped state).Pid = 0 ∧
      (buildState env Status.Stopped state).jsonFields.get "pid" = some (JValue.num 0) := by
  refine ⟨run_of_loaded env opts cID rest c _ state hL hS hSt, ?_, ?_⟩
  · simp [buildState_pid]
  · simp [containerState.jsonFields, JObject.get, List.find?, buildState_pid]

/-- C1, at the stopped instance `my-unikernel` whose record carries the stale
pid 4821. -/
theorem stopped_reports_pid_zero_witness :
    stoppedState.BaseState.InitProcessPid = 4821 ∧
      (buildState sampleEnv Status.Stopped stoppedState).Pid = 0 :=
  ⟨by decide,
   (stopped_reports_pid_zero sampleEnv sampleOpts "my-unikernel" []
      { Status := .ok Status.Stopped, State := .ok stoppedState } stoppedState
      (by rfl) rfl rfl).2.1⟩

/-- C2 as stated fails: the created instance `fresh` has pid 0 on its record,
so `Run` reports pid 0 although the status is not stopped. -/
theorem pid_zero_iff_stopped_fails :
    StateOptions.Run sampleEnv sampleOpts ["fresh"]
        = some (emit sampleEnv (buildState sampleEnv Status.Created freshState)) ∧
      ¬ ((buildState sampleEnv Status.Created freshState).Pid = 0 ↔
          (buildState sampleEnv Status.Created freshState).Status = "stopped") := by
  decide

/-- C2, amended: when the container loads, the state that `Run` builds and
serializes has pid 0 if the status is Stopped and the record's
`InitProcessPid` otherwise, and that number is the `pid` member of the
serialized object; so the reported pid is 0 exactly when the status is Stopped
or the record's `InitProcessPid` is 0. -/
theorem pid_zero_iff_stopped_or_no_process (env : Env) (opts : StateOptions) (cID : String)
    (rest : List String) (c : Container) (status : Status) (state : State)
    (hL : env.Load opts.rootDir cID = .ok c) (hS : c.Status = .ok status)
    (hSt : c.State = .ok state) :
    StateOptions.Run env opts (cID :: rest)
        = some (emit env (buildState env status state)) ∧
      (buildState env status state).Pid
        = (if status = Status.Stopped then 0 else state.BaseState.InitProcessPid) ∧
      (buildState env status state).jsonFields.get "pid"
        = some (JValue.num
            (if status = Status.Stopped then 0 else state.BaseState.InitProcessPid)) ∧
      ((buildState env status state).jsonFields.get "pid" = some (JValue.num 0) ↔
        (status = Status.Stopped ∨ state.BaseState.InitProcessPid = 0)) := by
  have hget : (buildState env status state).jsonFields.get "pid"
      = some (JValue.num
          (if status = Status.Stopped then 0 else state.BaseState.InitProcessPid)) := by
    simp [containerState.jsonFields, JObject.get, List.find?, buildState_pid]
  refine ⟨run_of_loaded env opts cID rest c status state hL hS hSt,
    buildState_pid env status state, hget, ?_⟩
  rw [hget]
  by_cases h : status = Status.Stopped <;> simp [h]

/-- C2 amended, at the created instance `fresh` (pid 0 on the record, reported
pid 0) and at the running instance `web-1` (pid 4821, reported pid 4821). -/
theorem pid_zero_iff_stopped_or_no_process_witness :
    (buildState sampleEnv Status.Created freshState).jsonFields.get "pid"
        = some (JValue.num 0) ∧
      (buildState sampleEnv Status.Running runningState).jsonFields.get "pid"
        = some (JValue.num 4821) :=
  ⟨(pid_zero_iff_stopped_or_no_process sampleEnv sampleOpts "fresh" []
      { Status := .ok Status.Created, State := .ok freshState } Status.Created freshState
      (by rfl) rfl rfl).2.2.1,
   (pid_zero_iff_stopped_or_no_process sampleEnv sampleOpts "web-1" []
      { Status := .ok Status.Running, State := .ok runningState } Status.Running runningState
      (by rfl) rfl rfl).2.2.1⟩

/-- C3: when the container loads, the state that `Run` builds and serializes
copies id, version, rootfs and creation time from the record, carries the
string form of the resolved status, and, unless the status is Stopped, the
record's `InitProcessPid`. -/
theorem report_echoes_record (env : Env) (opts : StateOptions) (cID : String)
    (rest : List String) (c : Container) (status : Status) (state : State)
    (hL : env.Load opts.rootDir cID = .ok c) (hS : c.Status = .ok status)
    (hSt : c.State = .ok state) :
    StateOptions.Run env opts (cID :: rest)
        = some (emit env (buildState env status state)) ∧
      (buildState env status state).ID = state.BaseState.ID ∧
      (buildState env status state).OCIVersion = state.BaseState.Config.Version ∧
      (buildState env status state).RootFS = state.BaseState.Config.Rootfs ∧
      (buildState env status state).Created = state.BaseState.Created ∧
      (buildState env status state).Status = status.String ∧
      (status ≠ Status.Stopped →
        (buildState env status state).Pid = state.BaseState.InitProcessPid) := by
  refine ⟨run_of_loaded env opts cID rest c status state hL hS hSt, ?_, ?_, ?_, ?_, ?_, ?_⟩
  · simp [buildState]
  · simp [buildState]
  · simp [buildState]
  · simp [buildState]
  · simp [buildState]
  · intro h
    simp [buildState_pid, h]

/-- C3, at the running instance `web-1` with pid 4821: the report says
`running` and 4821. -/
theorem report_echoes_record_witness :
    (buildState sampleEnv Status.Running runningState).Status = "running" ∧
      (buildState sampleEnv Status.Running runningState).Pid = 4821 :=
  have h := report_echoes_record sampleEnv sampleOpts "web-1" []
    { Status := .ok Status.Running, State := .ok runningState } Status.Running runningState
    (by rfl) rfl rfl
  ⟨h.2.2.2.2.2.1, h.2.2.2.2.2.2 (by decide)⟩

/-- C4 as stated fails: for the stopped instance `my-unikernel` the serialized
object has no member `specVersion`; its member names differ from the table's,
and the version sits under `ociVersion`. -/
theorem spec_version_key_absent :
    (buildState sampleEnv Status.Stopped stoppedState).jsonFields.keys
        ≠ ["specVersion", "id", "status", "bundle", "pid", "rootfs", "created"] ∧
      (buildState sampleEnv Status.Stopped stoppedState).jsonFields.get "specVersion" = none ∧
      (buildState sampleEnv Status.Stopped stoppedState).jsonFields.get "ociVersion"
        = some (JValue.str "1.1.0") := by
  decide

/-- C4, amended: every run that returns nil encoded, and handed to one write,
an object whose member names are exactly ociVersion, id, status, bundle, pid,
then annotations when the annotation map is non-empty, then rootfs, created;
the record's version is the value of `ociVersion`. -/
theorem serialized_member_names (env : Env) (opts : StateOptions) (cID : String)
    (rest : List String) (out : Outcome)
    (h : StateOptions.Run env opts (cID :: rest) = some out) (hnil : out.retErr = none) :
    ∃ c status state data, env.Load opts.rootDir cID = .ok c ∧ c.Status = .ok status ∧
      c.State = .ok state ∧
      env.encode (buildState env status state).jsonFields = .ok data ∧
      out.writes = [(data, env.Write data)] ∧
      (buildState env status state).jsonFields.keys =
        ["ociVersion", "id", "status", "bundle", "pid"]
          ++ (if (env.Annotations state.BaseState.Config.Labels).2.len = 0 then []
              else ["annotations"])
          ++ ["rootfs", "created"] ∧
      (buildState env status state).jsonFields.get "ociVersion"
        = some (JValue.str state.BaseState.Config.Version) := by
  obtain ⟨c, status, state, data, hL, hS, hSt, hE, hW, _⟩ :=
    run_nil_inv env opts cID rest out h hnil
  refine ⟨c, status, state, data, hL, hS, hSt, hE, hW, ?_, ?_⟩
  · rw [jsonFields_keys, buildState_annotations]
  · simp [containerState.jsonFields, JObject.get, List.find?, buildState]

/-- C4 amended, at the running instance `web-1`: the run returns nil and some
container, status and state account for the one write. -/
theorem serialized_member_names_witness :
    ∃ c status state data, sampleEnv.Load sampleOpts.rootDir "web-1" = .ok c ∧
      c.Status = .ok status ∧ c.State = .ok state ∧
      sampleEnv.encode (buildState sampleEnv status state).jsonFields = .ok data ∧
      [("ociVersion,id,status,bundle,pid,annotations,rootfs,created", none)]
        = [(data, sampleEnv.Write data)] ∧
      (buildState sampleEnv status state).jsonFields.keys =
        ["ociVersion", "id", "status", "bundle", "pid"]
          ++ (if (sampleEnv.Annotations state.BaseState.Config.Labels).2.len = 0 then []
              else ["annotations"])
          ++ ["rootfs", "created"] ∧
      (buildState sampleEnv status state).jsonFields.get "ociVersion"
        = some (JValue.str state.BaseState.Config.Version) :=
  serialized_member_names sampleEnv sampleOpts "web-1" []
    { retErr := none,
      writes := [("ociVersion,id,status,bundle,pid,annotations,rootfs,created", none)],
      logged := [] }
    (by decide) rfl

/-- C5: when the container loads, the object that `Run` serializes has no
`annotations` member if the annotation map returned by `Annotations` has
length 0 (empty or nil), and otherwise has the member with that map as its
value. -/
theorem annotations_omitted_iff_empty (env : Env) (opts : StateOptions) (cID : String)
    (rest : List String) (c : Container) (status : Status) (state : State)
    (hL : env.Load opts.rootDir cID = .ok c) (hS : c.Status = .ok status)
    (hSt : c.State = .ok state) :
    StateOptions.Run env opts (cID :: rest)
        = some (emit env (buildState env status state)) ∧
      ((env.Annotations state.BaseState.Config.Labels).2.len = 0 →
        "annotations" ∉ (buildState env status state).jsonFields.keys ∧
        (buildState env status state).jsonFields.get "annotations" = none) ∧
      ((env.Annotations state.BaseState.Config.Labels).2.len ≠ 0 →
        "annotations" ∈ (buildState env status state).jsonFields.keys ∧
        (buildState env status state).jsonFields.get "annotations"
          = some (JValue.strMap
              ((env.Annotations state.BaseState.Config.Labels).2.getD []))) := by
  refine ⟨run_of_loaded env opts cID rest c status state hL hS hSt, ?_, ?_⟩
  · intro h0
    rw [jsonFields_keys, jsonFields_get_annotations, buildState_annotations]
    simp [h0]
  · intro h0
    rw [jsonFields_keys, jsonFields_get_annotations, buildState_annotations]
    simp [h0]

/-- C5, at the stopped instance `my-unikernel` (no annotations, no member) and
at the running instance `web-1` (one annotation, member present). -/
theorem annotations_omitted_iff_empty_witness :
    ("annotations" ∉ (buildState sampleEnv Status.Stopped stoppedState).jsonFields.keys ∧
      (buildState sampleEnv Status.Stopped stoppedState).jsonFields.get "annotations"
        = none) ∧
    ("annotations" ∈ (buildState sampleEnv Status.Running runningState).jsonFields.keys ∧
      (buildState sampleEnv Status.Running runningState).jsonFields.get "annotations"
        = some (JValue.strMap
            ((sampleEnv.Annotations runningState.BaseState.Config.Labels).2.getD []))) :=
  ⟨(annotations_omitted_iff_empty sampleEnv sampleOpts "my-unikernel" []
      { Status := .ok Status.Stopped, State := .ok stoppedState } Status.Stopped stoppedState
      (by rfl) rfl rfl).2.1 (by decide),
   (annotations_omitted_iff_empty sampleEnv sampleOpts "web-1" []
      { Status := .ok Status.Running, State := .ok runningState } Status.Running runningState
      (by rfl) rfl rfl).2.2 (by decide)⟩

/-! ## Failures of `runu state` -/

/-- A failing step makes `Run` return the failure wrapped in a context string,
with nothing written. -/
theorem run_of_step_fails (env : Env) (opts : StateOptions) (cID : String)
    (rest : List String) (e : Error) (h : StepFails env opts.rootDir cID e) :
    ∃ ctx, StateOptions.Run env opts (cID :: rest) = some (failWith (.wrap ctx e)) := by
  rcases h with hL | ⟨c, hL, hS⟩ | ⟨c, status, hL, hS, hSt⟩ | ⟨c, status, state, hL, hS, hSt, hE⟩
  · exact ⟨"loading container from saved state", by simp [StateOptions.Run, hL]⟩
  · exact ⟨"getting container status", by simp [StateOptions.Run, hL, hS]⟩
  · exact ⟨"getting container state", by simp [StateOptions.Run, hL, hS, hSt]⟩
  · exact ⟨"serializing container state", by simp [StateOptions.Run, hL, hS, hSt, emit, hE]⟩

/-- C6: if loading the container, resolving its status, reading its state or
serializing the result fails with `e`, then `Run` returns a non-nil error that
wraps `e`, hands nothing to standard output, and logs the returned error. -/
theorem failure_returns_wrapped_error_without_output (env : Env) (opts : StateOptions)
    (cID : String) (rest : List String) (e : Error)
    (h : StepFails env opts.rootDir cID e) :
    ∃ out ctx, StateOptions.Run env opts (cID :: rest) = some out ∧
      out.retErr = some (Error.wrap ctx e) ∧ e ∈ (Error.wrap ctx e).chain ∧
      out.writes = [] ∧ out.logged = [Error.wrap ctx e] := by
  obtain ⟨ctx, hrun⟩ := run_of_step_fails env opts cID rest e h
  refine ⟨failWith (.wrap ctx e), ctx, hrun, rfl, ?_, rfl, rfl⟩
  cases e <;> simp [Error.chain]

/-- C6, at the instance `locked`, whose status cannot be resolved because the
probe is denied. -/
theorem failure_returns_wrapped_error_without_output_witness :
    ∃ out ctx, StateOptions.Run sampleEnv sampleOpts ["locked"] = some out ∧
      out.retErr = some (Error.wrap ctx (Error.msg "probe: permission denied")) ∧
      Error.msg "probe: permission denied"
        ∈ (Error.wrap ctx (Error.msg "probe: permission denied")).chain ∧
      out.writes = [] ∧
      out.logged = [Error.wrap ctx (Error.msg "probe: permission denied")] :=
  failure_returns_wrapped_error_without_output sampleEnv sampleOpts "locked" []
    (Error.msg "probe: permission denied")
    (Or.inr (Or.inl ⟨{ Status := .error (.msg "probe: permission denied"),
                       State := .ok runningState }, by rfl, rfl⟩))

/-- C7 as stated fails: with a closed standard output the one write that `Run`
makes for `web-1` returns an error, and `Run` still returns nil and logs
nothing. -/
theorem write_error_is_dropped :
    StateOptions.Run brokenStdoutEnv sampleOpts ["web-1"]
      = some { retErr := none,
               writes := [("ociVersion,id,status,bundle,pid,annotations,rootfs,created",
                           some (Error.msg "write /dev/stdout: broken pipe"))],
               logged := [] } := by
  decide

/-- C7, amended: `Run` returns a non-nil error exactly when loading, status
resolution, state reading or serialization fails; whatever the final write
returned, an error included, a run that reached the write returns nil and logs
nothing. -/
theorem error_iff_step_fails (env : Env) (opts : StateOptions) (cID : String)
    (rest : List String) :
    ∃ out, StateOptions.Run env opts (cID :: rest) = some out ∧
      (out.retErr ≠ none ↔ ∃ e, StepFails env opts.rootDir cID e) ∧
      ∀ data written, (data, written) ∈ out.writes →
        written = env.Write data ∧ out.retErr = none ∧ out.logged = [] := by
  cases hL : env.Load opts.rootDir cID with
  | error e =>
    exact ⟨failWith (.wrap "loading container from saved state" e),
      by simp [StateOptions.Run, hL],
      ⟨fun _ => ⟨e, Or.inl hL⟩, fun _ => by simp [failWith]⟩,
      by simp [failWith]⟩
  | ok c =>
    cases hS : c.Status with
    | error e =>
      exact ⟨failWith (.wrap "getting container status" e),
        by simp [StateOptions.Run, hL, hS],
        ⟨fun _ => ⟨e, Or.inr (Or.inl ⟨c, hL, hS⟩)⟩, fun _ => by simp [failWith]⟩,
        by simp [failWith]⟩
    | ok status =>
      cases hSt : c.State with
      | error e =>
        exact ⟨failWith (.wrap "getting container state" e),
          by simp [StateOptions.Run, hL, hS, hSt],
          ⟨fun _ => ⟨e, Or.inr (Or.inr (Or.inl ⟨c, status, hL, hS, hSt⟩))⟩,
            fun _ => by simp [failWith]⟩,
          by simp [failWith]⟩
      | ok state =>
        cases hE : env.encode (buildState env status state).jsonFields with
        | error e =>
          exact ⟨failWith (.wrap "serializing container state" e),
            by simp [StateOptions.Run, hL, hS, hSt, emit, hE],
            ⟨fun _ => ⟨e, Or.inr (Or.inr (Or.inr ⟨c, status, state, hL, hS, hSt, hE⟩))⟩,
              fun _ => by simp [failWith]⟩,
            by simp [failWith]⟩
        | ok data =>
          refine ⟨{ retErr := none, writes := [(data, env.Write data)], logged := [] },
            by simp [StateOptions.Run, hL, hS, hSt, emit, hE], ⟨fun h => absurd rfl h, ?_⟩,
            ?_⟩
          · rintro ⟨e, h1 | ⟨c1, h1, h2⟩ | ⟨c1, s1, h1, h2, h3⟩ |
              ⟨c1, s1, st1, h1, h2, h3, h4⟩⟩
            · rw [hL] at h1; cases h1
            · rw [hL] at h1; cases h1; rw [hS] at h2; cases h2
            · rw [hL] at h1; cases h1; rw [hS] at h2; cases h2; rw [hSt] at h3; cases h3
            · rw [hL] at h1; cases h1; rw [hS] at h2; cases h2; rw [hSt] at h3; cases h3
              rw [hE] at h4; cases h4
          · intro d w hmem
            simp only [List.mem_singleton, Prod.mk.injEq] at hmem
            obtain ⟨rfl, rfl⟩ := hmem
            exact ⟨rfl, rfl, rfl⟩

/-! ## The PID-reuse guard -/

/-- C8: for a record with a non-zero pid, if the probe reports that pid alive
with a start-time token other than the recorded one, the resolver returns
Stopped; and a run of `Run` on a container whose `Status()` is that resolution
serializes a state with pid 0. -/
theorem pid_reuse_resolves_stopped (unspecified : Except Error Status) (probe : Probe)
    (record : InstanceRecord) (token : Nat) (env : Env) (opts : StateOptions) (cID : String)
    (rest : List String) (state : State)
    (hpid : record.state.BaseState.InitProcessPid ≠ 0)
    (hprobe : probe record.state.BaseState.InitProcessPid = .ok (some token))
    (htoken : token ≠ record.state.BaseState.InitProcessStartTime)
    (hL : env.Load opts.rootDir cID
      = .ok { Status := resolve unspecified probe record, State := .ok state }) :
    resolve unspecified probe record = .ok Status.Stopped ∧
      StateOptions.Run env opts (cID :: rest)
        = some (emit env (buildState env Status.Stopped state)) ∧
      (buildState env Status.Stopped state).Pid = 0 := by
  have hres : resolve unspecified probe record = .ok Status.Stopped := by
    unfold resolve
    by_cases hph : record.lastKnownPhase = Status.Stopped
    · simp [hph]
    · simp [hph, hpid, hprobe, htoken]
  refine ⟨hres, ?_, ?_⟩
  · exact run_of_loaded env opts cID rest _ Status.Stopped state hL hres rfl
  · simp [buildState_pid]

/-- C8, at the running record of `web-1` (pid 4821, token 100) with a probe
that finds pid 4821 alive with token 200. -/
theorem pid_reuse_resolves_stopped_witness :
    resolve (.ok Status.Stopped) reusedPidProbe runningRecord = .ok Status.Stopped ∧
      (buildState sampleEnv Status.Stopped runningState).Pid = 0 :=
  have h := pid_reuse_resolves_stopped (.ok Status.Stopped) reusedPidProbe runningRecord 200
    { sampleEnv with
      Load := fun _ _ => .ok { Status := resolve (.ok Status.Stopped) reusedPidProbe runningRecord,
                               State := .ok runningState } }
    sampleOpts "web-1" [] runningState (by decide) (by rfl) (by decide) rfl
  ⟨h.1, h.2.2⟩

/-! ## `kraft cloud volume remove` -/

/-- The classification loop, started from flags that are not both false, ends
with each flag conjoined with the matching test over all the arguments. -/
theorem classify_eq (IsUUID : String → Bool) (args : List String) (allUUIDs allNames : Bool)
    (h : (allUUIDs || allNames) = true) :
    classify IsUUID args (allUUIDs, allNames)
      = (allUUIDs && args.all IsUUID, allNames && args.all (fun a => !IsUUID a)) := by
  induction args generalizing allUUIDs allNames with
  | nil => simp [classify]
  | cons arg rest ih =>
    cases hu : IsUUID arg
    · cases allNames
      · simp [classify, hu]
      · have := ih false true rfl
        simp [classify, hu, this]
    · cases allUUIDs
      · simp [classify, hu]
      · have := ih true false rfl
        simp [classify, hu, this]

/-- The per-argument loop extends the trace by one request per argument of a
prefix of the arguments, each holding what the client returned for it; only
the last of these can have returned an error, and it did if arguments are left
over. -/
theorem deleteEach_trace {Resp : Type} (env : RemoveEnv Resp) (auth metro : String)
    (args : List String) (trace : List (Exchange Resp)) (delResp : Option Resp) :
    ∃ added : List (Exchange Resp),
      (deleteEach env auth metro args trace delResp).2.1 = trace ++ added ∧
      added.map Exchange.call = (args.take added.length).map (callOf env.IsUUID) ∧
      answeredFrom env auth metro (trace.map Exchange.call) added ∧
      (∀ x ∈ added.dropLast, x.err = none) ∧
      (added.length < args.length → ∃ x e, added.getLast? = some x ∧ x.err = some e) := by
  induction args generalizing trace delResp with
  | nil => exact ⟨[], by simp [deleteEach, answeredFrom]⟩
  | cons arg rest ih =>
    cases hx : (request env auth metro trace (callOf env.IsUUID arg)).err with
    | some e =>
      refine ⟨[request env auth metro trace (callOf env.IsUUID arg)], ?_, ?_, ?_, ?_, ?_⟩
      · simp only [deleteEach]
        have hx2 := hx
        unfold callOf at hx2
        rw [hx2]
        simp [callOf]
      · simp [request]
      · simp [answeredFrom, request]
      · simp
      · intro _
        exact ⟨_, e, by simp, hx⟩
    | none =>
      obtain ⟨added, h1, h2, ha, h3, h4⟩ :=
        ih (trace ++ [request env auth metro trace (callOf env.IsUUID arg)])
          (request env auth metro trace (callOf env.IsUUID arg)).resp
      refine ⟨request env auth metro trace (callOf env.IsUUID arg) :: added,
        ?_, ?_, ?_, ?_, ?_⟩
      · simp only [deleteEach]
        have hx2 := hx
        unfold callOf at hx2
        rw [hx2]
        simp only [callOf] at h1
        simp [h1, callOf]
      · simp [h2, request]
      · refine ⟨by simp [request], ?_⟩
        simpa [request] using ha
      · intro x hxmem
        cases added with
        | nil => simp at hxmem
        | cons y ys =>
          rw [List.dropLast_cons₂] at hxmem
          rcases List.mem_cons.mp hxmem with rfl | hmem
          · exact hx
          · exact h3 x hmem
      · intro hlen
        have hlen2 : added.length < rest.length := by
          simpa using hlen
        obtain ⟨x, e, hlast, herr⟩ := h4 hlen2
        cases added with
        | nil => simp at hlast
        | cons y ys => exact ⟨x, e, by simpa [List.getLast?_cons_cons] using hlast, herr⟩

/-- A run that sends all the arguments at once makes that one request, and the
trace holds what the client returned for it. -/
theorem deleteAll_trace {Resp : Type} (env : RemoveEnv Resp) (auth metro : String)
    (call : Call) (count : Nat) :
    (deleteAll env auth metro call count).trace
      = [{ call := call, resp := (env.client auth metro [] call).1,
           err := (env.client auth metro [] call).2 }] := by
  simp only [deleteAll]
  cases (request env auth metro [] call).err with
  | some e => simp [request]
  | none =>
    simp only [checkLast]
    cases env.AllOrErr (request env auth metro [] call).resp <;> simp [request]

/-- C9: once the credentials are retrieved, the classification loop leaves
`allUUIDs` true exactly when every argument is a UUID and `allNames` true
exactly when none is.  Every request of the run is made to the client of the
environment, and the trace holds what the client returned for it after the
requests before it.  An all-UUID list (the empty list included) makes the
single request `DeleteByUUIDs` with all arguments; a non-empty all-name list
makes the single request `DeleteByNames` with all arguments; a mixed list makes
one request per argument of a prefix of the list, in order, each by the method
matching the argument, where the client returned no error for any request but
the last, and returned one for the last if arguments were left over. -/
theorem remove_dispatch {Resp : Type} (env : RemoveEnv Resp) (opts : RemoveOptions)
    (args : List String) (auth : String)
    (hauth : env.GetKraftCloudAuthConfig opts.token = .ok auth) :
    classify env.IsUUID args (true, true)
        = (args.all env.IsUUID, args.all (fun a => !env.IsUUID a)) ∧
      answeredFrom env auth opts.metro [] (RemoveOptions.Run env opts args).trace ∧
      (args.all env.IsUUID = true →
        (RemoveOptions.Run env opts args).trace
          = [{ call := Call.DeleteByUUIDs args,
               resp := (env.client auth opts.metro [] (Call.DeleteByUUIDs args)).1,
               err := (env.client auth opts.metro [] (Call.DeleteByUUIDs args)).2 }]) ∧
      (args ≠ [] → args.all (fun a => !env.IsUUID a) = true →
        (RemoveOptions.Run env opts args).trace
          = [{ call := Call.DeleteByNames args,
               resp := (env.client auth opts.metro [] (Call.DeleteByNames args)).1,
               err := (env.client auth opts.metro [] (Call.DeleteByNames args)).2 }]) ∧
      (args.all env.IsUUID = false → args.all (fun a => !env.IsUUID a) = false →
        (RemoveOptions.Run env opts args).trace.map Exchange.call
            = (args.take (RemoveOptions.Run env opts args).trace.length).map
                (callOf env.IsUUID) ∧
          (∀ x ∈ (RemoveOptions.Run env opts args).trace.dropLast, x.err = none) ∧
          ((RemoveOptions.Run env opts args).trace.length < args.length →
            ∃ x e, (RemoveOptions.Run env opts args).trace.getLast? = some x ∧
              x.err = some e)) := by
  have hc : classify env.IsUUID args (true, true)
      = (args.all env.IsUUID, args.all (fun a => !env.IsUUID a)) := by
    simpa using classify_eq env.IsUUID args true true rfl
  have hmixed : args.all env.IsUUID = false → args.all (fun a => !env.IsUUID a) = false →
      ∃ added : List (Exchange Resp), (RemoveOptions.Run env opts args).trace = added ∧
        added.map Exchange.call = (args.take added.length).map (callOf env.IsUUID) ∧
        answeredFrom env auth opts.metro [] added ∧
        (∀ x ∈ added.dropLast, x.err = none) ∧
        (added.length < args.length → ∃ x e, added.getLast? = some x ∧ x.err = some e) := by
    intro hU hN
    obtain ⟨added, h1, h2, ha, h3, h4⟩ := deleteEach_trace env auth opts.metro args [] none
    refine ⟨added, ?_, h2, by simpa using ha, h3, h4⟩
    simp only [RemoveOptions.Run, hauth, hc, hU, hN]
    rw [List.nil_append] at h1
    rcases hd : deleteEach env auth opts.metro args [] none with ⟨err, tr, last⟩
    rw [hd] at h1
    simp only at h1
    subst h1
    cases err with
    | some e => simp
    | none =>
      simp only [Bool.false_eq_true, if_false]
      unfold checkLast
      split <;> rfl
  have hN_of : args ≠ [] → args.all (fun a => !env.IsUUID a) = true →
      args.all env.IsUUID = false := by
    intro hne hN
    cases args with
    | nil => exact absurd rfl hne
    | cons a rest =>
      simp only [List.all_cons, Bool.and_eq_true, Bool.not_eq_true'] at hN
      simp [List.all_cons, hN.1]
  have hUUIDs : args.all env.IsUUID = true →
      (RemoveOptions.Run env opts args).trace
        = [{ call := Call.DeleteByUUIDs args,
             resp := (env.client auth opts.metro [] (Call.DeleteByUUIDs args)).1,
             err := (env.client auth opts.metro [] (Call.DeleteByUUIDs args)).2 }] := by
    intro hU
    simp only [RemoveOptions.Run, hauth, hc, hU, if_true]
    exact deleteAll_trace env auth opts.metro _ _
  have hNames : args ≠ [] → args.all (fun a => !env.IsUUID a) = true →
      (RemoveOptions.Run env opts args).trace
        = [{ call := Call.DeleteByNames args,
             resp := (env.client auth opts.metro [] (Call.DeleteByNames args)).1,
             err := (env.client auth opts.metro [] (Call.DeleteByNames args)).2 }] := by
    intro hne hN
    have hU := hN_of hne hN
    simp only [RemoveOptions.Run, hauth, hc, hU, hN, if_true]
    exact deleteAll_trace env auth opts.metro _ _
  refine ⟨hc, ?_, hUUIDs, hNames, ?_⟩
  · cases hU : args.all env.IsUUID with
    | true => rw [hUUIDs hU]; simp [answeredFrom]
    | false =>
      cases hN : args.all (fun a => !env.IsUUID a) with
      | true =>
        have hne : args ≠ [] := by
          intro h0
          subst h0
          simp at hU
        rw [hNames hne hN]; simp [answeredFrom]
      | false =>
        obtain ⟨added, ht, _, ha, _, _⟩ := hmixed hU hN
        rw [ht]
        exact ha
  · intro hU hN
    obtain ⟨added, ht, h2, _, h3, h4⟩ := hmixed hU hN
    rw [ht]
    exact ⟨h2, h3, h4⟩

/-- C9, at a mixed list of one name and one UUID with a client that returns a
transport error for requests by name: the first request, `DeleteByNames` for
the name, is the only one made, the trace holds the client's error for it, and
the UUID is never requested. -/
theorem remove_dispatch_witness :
    (∃ x e, (RemoveOptions.Run failingRemoveEnv sampleRemoveOpts
        ["data", "11111111-2222-3333-4444-555555555555"]).trace.getLast? = some x ∧
      x.err = some e) ∧
    answeredFrom failingRemoveEnv "secret" "fra0" []
      (RemoveOptions.Run failingRemoveEnv sampleRemoveOpts
        ["data", "11111111-2222-3333-4444-555555555555"]).trace ∧
    (RemoveOptions.Run failingRemoveEnv sampleRemoveOpts
        ["data", "11111111-2222-3333-4444-555555555555"]).trace.map
        (fun x => (x.call, x.err))
      = [(Call.DeleteByNames ["data"], some (Error.msg "connection refused"))] :=
  have h := remove_dispatch failingRemoveEnv sampleRemoveOpts
    ["data", "11111111-2222-3333-4444-555555555555"] "secret" rfl
  ⟨(h.2.2.2.2 (by decide) (by decide)).2.2 (by decide), h.2.1, by decide⟩

/-- C10 fails on the code: for the mixed list of one UUID and one name, the
response to the first request does not pass `AllOrErr`, the response to the
second does, no request returned a transport error, and `Run` returns nil:
only the last response is checked. -/
theorem earlier_response_unchecked :
    (RemoveOptions.Run sampleRemoveEnv sampleRemoveOpts
        ["11111111-2222-3333-4444-555555555555", "data"]).trace.map
        (fun x => (x.call, x.err, sampleRemoveEnv.AllOrErr x.resp))
      = [(Call.DeleteByUUIDs ["11111111-2222-3333-4444-555555555555"], none,
            some (Error.msg "volume is attached to an instance")),
         (Call.DeleteByNames ["data"], none, none)] ∧
      (RemoveOptions.Run sampleRemoveEnv sampleRemoveOpts
        ["11111111-2222-3333-4444-555555555555", "data"]).retErr = none := by
  decide

end Kraftkit
